import Mathlib

/-!
# Verification of the LGTM-stack request-observability middleware

This file gives a shallow embedding, in Lean 4, of the request-scoped
observability logic of the three Node/Express services in the repository
(gateway alias sample-app, order-service, payment-service):

* the response-mapping logic of the business handlers
  (payment-service/app.js POST /payments, order-service/app.js POST /orders,
  sample-app/app.js POST /api/order), including the axios error model
  (non-2xx statuses raise an error carrying the response; transport
  failures raise an error with no response);
* the observability middleware of sample-app/metrics.js and
  order-service/metrics.js (gauge increment on entry, one-shot latched
  decrement on the finish/close terminal callbacks, request counter,
  duration histogram observations, structured log events);
* an event-trace model of the bare active-requests tracking middleware of
  order-service/app.js and payment-service/app.js, supporting arbitrary
  event-loop interleavings of many requests.

Randomness (Math.random) is modelled by explicit parameters: the decline
branch of the payment handler takes a Boolean, and the fallback order
total takes the rounded draw as a natural number.  Wall-clock values
(Date.now based ids and durations) are likewise parameters where the
behaviour depends on them, and histogram observations are modelled by
their count, which is all the claims refer to.
-/

/-- JSON values as produced by the services' res.json calls: strings,
rational numbers and objects are the only shapes that occur. -/
inductive JVal where
  | str (s : String)
  | num (q : ℚ)
  | obj (fields : List (String × JVal))

/-- Field lookup in a JSON object (data.error etc.); none on non-objects
and missing keys, mirroring undefined in JS. -/
def JVal.getField (j : JVal) (k : String) : Option JVal :=
  match j with
  | .obj fs => fs.lookup k
  | _ => none

/-- An HTTP response: status code plus JSON body. -/
structure Resp where
  status : Nat
  body : JVal

/-- Result of one downstream HTTP call attempt, before axios interprets
it: either the server produced a response, or the transport failed
(connection refused, timeout) with an exception message. -/
inductive CallResult where
  | response (r : Resp)
  | transportFail (msg : String)

/-- What the await axios.post(...) expression does with a call result:
2xx resolves with the body; any other status rejects with an error whose
response field carries status and body; a transport failure rejects with
an error that has no response field, only a message. -/
inductive AxiosOutcome where
  | ok (data : JVal)
  | httpError (status : Nat) (data : JVal)
  | networkError (msg : String)

/-- Axios default validateStatus: resolve iff 200 <= status < 300. -/
def axiosPost (c : CallResult) : AxiosOutcome :=
  match c with
  | .response r =>
      if 200 ≤ r.status ∧ r.status ≤ 299 then .ok r.body
      else .httpError r.status r.body
  | .transportFail m => .networkError m

/-- payment-service/app.js, POST /payments.  The declined parameter is
the outcome of the Math.random() < 0.1 draw; paymentId is the
PAY-Date.now() string; processedAt the ISO timestamp.  On decline the
handler returns 400 with status declined and error Card declined; else
200 with status approved echoing orderId and amount. -/
def paymentHandler (declined : Bool) (orderId : String) (amount : ℚ)
    (paymentId : String) (processedAt : String) : Resp :=
  if declined then
    ⟨400, .obj [("status", .str "declined"), ("paymentId", .str paymentId),
                ("orderId", .str orderId), ("error", .str "Card declined")]⟩
  else
    ⟨200, .obj [("status", .str "approved"), ("paymentId", .str paymentId),
                ("orderId", .str orderId), ("amount", .num amount),
                ("processedAt", .str processedAt)]⟩

/-- Severity levels of the winston logger as used by the services. -/
inductive LogLevel where
  | info
  | warn
  | error
  deriving DecidableEq

/-- One structured log event; requestId is the request_id field when the
call site passes one, none when it does not. -/
structure LogEntry where
  level : LogLevel
  message : String
  requestId : Option String
  deriving DecidableEq

/-- JS truthiness of the error field read in order-service/app.js:
error.response.data.error || "Payment failed".  A present non-empty
string is used verbatim; an absent field, a non-string value or the
empty string fall back to Payment failed. -/
def orderErrorMsg (data : JVal) : String :=
  match data.getField "error" with
  | some (.str e) => if e = "" then "Payment failed" else e
  | _ => "Payment failed"

/-- order-service/app.js line 82: req.body.total || Math.round(Math.random()
* 10000) / 100.  bodyTotal is none when the field is absent or null;
some 0 is falsy in JS, so the random fallback r / 100 is used for it
too (r is the already-rounded draw, an integer in [0, 10000]). -/
def orderTotalOf (bodyTotal : Option ℚ) (r : Nat) : ℚ :=
  match bodyTotal with
  | some t => if t = 0 then (r : ℚ) / 100 else t
  | none => (r : ℚ) / 100

/-- Everything observable about one run of the order handler: the amount
field of the body POSTed to the payment service, the response written,
and the log events the handler itself emitted (none of which passes a
request_id field). -/
structure OrderOutcome where
  amountSent : ℚ
  resp : Resp
  logs : List LogEntry

/-- order-service/app.js, POST /orders.  orderId is the ORD-Date.now()
string; bodyTotal the request body's total field; r the rounded random
draw; downstream the result of the axios POST to the payment service.
On success: 200 status completed with total and the payment payload.
On an axios error with a response: that response's status, body status
failed with the downstream error text (or Payment failed).  On a
transport error: 500 status error with the exception message. -/
def orderHandler (orderId : String) (bodyTotal : Option ℚ) (r : Nat)
    (downstream : CallResult) : OrderOutcome :=
  let orderTotal := orderTotalOf bodyTotal r
  let logs0 : List LogEntry :=
    [⟨.info, "Processing order", none⟩, ⟨.info, "Calling payment service", none⟩]
  match axiosPost downstream with
  | .ok data =>
      { amountSent := orderTotal
        resp := ⟨200, .obj [("status", .str "completed"), ("orderId", .str orderId),
                            ("total", .num orderTotal), ("payment", data)]⟩
        logs := logs0 ++ [⟨.info, "Order completed", none⟩] }
  | .httpError st data =>
      { amountSent := orderTotal
        resp := ⟨st, .obj [("status", .str "failed"),
                           ("error", .str (orderErrorMsg data))]⟩
        logs := logs0 ++ [⟨.error, "Payment failed", none⟩] }
  | .networkError msg =>
      { amountSent := orderTotal
        resp := ⟨500, .obj [("status", .str "error"), ("error", .str msg)]⟩
        logs := logs0 ++ [⟨.error, "Order processing error", none⟩] }

/-- sample-app/app.js, POST /api/order.  On success the order payload is
returned unchanged with 200; on an axios error with a response, that
response's status and body are forwarded unchanged; on a transport
error, 500 with the exception message. -/
def gatewayHandler (downstream : CallResult) : Resp :=
  match axiosPost downstream with
  | .ok data => ⟨200, data⟩
  | .httpError st data => ⟨st, data⟩
  | .networkError msg => ⟨500, .obj [("error", .str msg)]⟩

/-- The status-to-level mapping of the Request completed log, shared by
sample-app/metrics.js and order-service/metrics.js: error for >= 500,
warn for >= 400, info otherwise. -/
def logLevel (status : Nat) : LogLevel :=
  if status ≥ 500 then .error
  else if status ≥ 400 then .warn
  else .info

/-- The Prometheus metric state touched by the observability middleware.
The requests-total counter is modelled by its list of increments (one
labelled (method, endpoint, status) triple per inc call), the duration
histogram by its total observation count, and the active-requests gauge
by its integer value.  decEvents counts how many times the dec call on
the gauge has actually run, so that exactly-once decrementing is
directly expressible. -/
structure Metrics where
  httpRequestsTotal : List (String × String × Nat)
  durationCount : Nat
  activeRequests : Int
  decEvents : Nat
  deriving DecidableEq

/-- A fresh registry: all metrics at zero. -/
def Metrics.init : Metrics := ⟨[], 0, 0, 0⟩

/-- The state visible to one tracked request's callbacks: the shared
metrics, the shared log stream, and the request's own one-shot latch
(the decremented flag of the middleware closure). -/
structure ReqState where
  m : Metrics
  logs : List LogEntry
  decremented : Bool
  deriving DecidableEq

/-- The cleanup helper of sample-app/metrics.js lines 116-121 (identical
in order-service/metrics.js): decrement the gauge only if the latch is
still clear, and set the latch, with no suspension point in between. -/
def cleanup (s : ReqState) : ReqState :=
  if s.decremented then s
  else
    { s with
      decremented := true
      m := { s.m with
             activeRequests := s.m.activeRequests - 1
             decEvents := s.m.decEvents + 1 } }

/-- A firing of one of the two terminal response callbacks.  finish
carries res.statusCode at firing time; close carries res.writableEnded. -/
inductive TermEv where
  | finish (status : Nat)
  | close (writableEnded : Bool)
  deriving DecidableEq

/-- The res.on finish callback: increment the labelled request counter,
observe the duration, run cleanup, then log Request completed at the
status-derived level, all tagged with the request id. -/
def onFinish (method pth reqId : String) (status : Nat) (s : ReqState) : ReqState :=
  let m1 := { s.m with
              httpRequestsTotal := s.m.httpRequestsTotal ++ [(method, pth, status)] }
  let m2 := { m1 with durationCount := m1.durationCount + 1 }
  let s1 := cleanup { s with m := m2 }
  { s1 with logs := s1.logs ++ [⟨logLevel status, "Request completed", some reqId⟩] }

/-- The res.on close callback: warn about a client abort when the
response was not fully written, then run cleanup. -/
def onClose (method pth reqId : String) (writableEnded : Bool) (s : ReqState) : ReqState :=
  let s1 :=
    if writableEnded then s
    else { s with logs := s.logs ++ [⟨.warn, "Request aborted by client", some reqId⟩] }
  cleanup s1

/-- Run the registered terminal callbacks in the order the event loop
fires them. -/
def handleSignals (method pth reqId : String) : List TermEv → ReqState → ReqState
  | [], s => s
  | TermEv.finish st :: rest, s =>
      handleSignals method pth reqId rest (onFinish method pth reqId st s)
  | TermEv.close we :: rest, s =>
      handleSignals method pth reqId rest (onClose method pth reqId we s)

/-- sample-app/metrics.js line 91: internal endpoints skipped by the
gateway's middleware. -/
def skipPath (pth : String) : Bool :=
  pth == "/metrics" || pth == "/health"

/-- order-service/metrics.js line 83: the order service's middleware
skips only the metrics endpoint. -/
def skipPathOrder (pth : String) : Bool :=
  pth == "/metrics"

/-- One request's full traversal of the gateway observability middleware
(sample-app/metrics.js): on a skipped path, fall through with no handler
registration and no state change; otherwise increment the gauge, log
Incoming request with the minted request id, initialize the latch to
false, and then fire the given terminal callbacks. -/
def processRequest (method pth reqId : String) (sigs : List TermEv)
    (m : Metrics) (logs : List LogEntry) : ReqState :=
  if skipPath pth then ⟨m, logs, false⟩
  else
    handleSignals method pth reqId sigs
      ⟨{ m with activeRequests := m.activeRequests + 1 },
       logs ++ [⟨.info, "Incoming request", some reqId⟩], false⟩

/-- One request's full traversal of the order service's observability
middleware (order-service/metrics.js); identical except that only
/metrics is skipped. -/
def processRequestOrder (method pth reqId : String) (sigs : List TermEv)
    (m : Metrics) (logs : List LogEntry) : ReqState :=
  if skipPathOrder pth then ⟨m, logs, false⟩
  else
    handleSignals method pth reqId sigs
      ⟨{ m with activeRequests := m.activeRequests + 1 },
       logs ++ [⟨.info, "Incoming request", some reqId⟩], false⟩

/-- An event of the interleaved event loop as seen by the bare
active-requests tracking middleware of order-service/app.js lines 28-40
(identical in payment-service/app.js): request i enters the middleware,
or one of request i's terminal callbacks (finish or close, which both
just call the latched decrement) fires. -/
inductive Ev where
  | enter (i : Nat)
  | term (i : Nat)
  deriving DecidableEq

/-- Shared gauge plus each request's latch: none before request i has
entered (no handlers registered), some false after entry with the latch
clear, some true once its decrement has run. -/
structure Sys where
  gauge : Int
  flag : Nat → Option Bool

/-- All-none initial system with gauge value g (the pre-burst baseline). -/
def Sys.init (g : Int) : Sys := ⟨g, fun _ => none⟩

/-- One event: entry adds 1 to the gauge and registers the request's
latch clear; a terminal callback runs the decrement closure, which
subtracts 1 and sets the latch only when the latch is registered and
clear, and otherwise does nothing. -/
def stepEv (s : Sys) : Ev → Sys
  | .enter i =>
      { gauge := s.gauge + 1
        flag := fun j => if j = i then some false else s.flag j }
  | .term i =>
      match s.flag i with
      | some false =>
          { gauge := s.gauge - 1
            flag := fun j => if j = i then some true else s.flag j }
      | _ => s

/-- Run a whole interleaved trace of events. -/
def runEv (s : Sys) : List Ev → Sys
  | [] => s
  | e :: t => runEv (stepEv s e) t

/-- Trace well-formedness for a burst of requests 0..N-1: every event
concerns one of those requests, and a request enters only when it has
not entered before (an HTTP request enters the middleware once). -/
def evOk (N : Nat) (s : Sys) : Ev → Bool
  | .enter i => decide (i < N) && (s.flag i == none)
  | .term i => decide (i < N)

/-- Bool-valued well-formedness of a trace from a starting state. -/
def wfB (N : Nat) (s : Sys) : List Ev → Bool
  | [] => true
  | e :: t => evOk N s e && wfB N (stepEv s e) t

/-- Number of requests among 0..n-1 that are in flight: entered, latch
still clear. -/
def pcount (f : Nat → Option Bool) : Nat → Int
  | 0 => 0
  | n + 1 => pcount f n + (if f n == some false then 1 else 0)

/-! ## Basic lemmas about the one-shot latch -/

theorem cleanup_of_true {s : ReqState} (h : s.decremented = true) : cleanup s = s := by
  simp [cleanup, h]

theorem cleanup_of_false {s : ReqState} (h : s.decremented = false) :
    cleanup s =
      { s with
        decremented := true
        m := { s.m with
               activeRequests := s.m.activeRequests - 1
               decEvents := s.m.decEvents + 1 } } := by
  simp [cleanup, h]

/-! ## Claims C3, C4, C8, C6 -/

/-- C3: when the payment decline branch triggers, payment answers 400
with status declined and error Card declined; the order service then
answers the same 400 with body status failed, error Card declined
verbatim; and the gateway answers the same 400 with the order service's
body unchanged. -/
theorem c3_decline_propagation (orderId oid2 paymentId processedAt : String)
    (amount : ℚ) (bt : Option ℚ) (r : Nat) :
    (paymentHandler true orderId amount paymentId processedAt).status = 400 ∧
    (paymentHandler true orderId amount paymentId processedAt).body.getField "status"
      = some (.str "declined") ∧
    (paymentHandler true orderId amount paymentId processedAt).body.getField "error"
      = some (.str "Card declined") ∧
    (orderHandler oid2 bt r
        (.response (paymentHandler true orderId amount paymentId processedAt))).resp
      = ⟨400, .obj [("status", .str "failed"), ("error", .str "Card declined")]⟩ ∧
    gatewayHandler (.response ((orderHandler oid2 bt r
        (.response (paymentHandler true orderId amount paymentId processedAt))).resp))
      = ⟨400, (orderHandler oid2 bt r
          (.response (paymentHandler true orderId amount paymentId processedAt))).resp.body⟩ :=
  ⟨rfl, rfl, rfl, rfl, rfl⟩

/-- C4: the Request completed log level is error on [500,599], warn on
[400,499] and info on [200,299]. -/
theorem c4_status_class_log_level (s1 s2 s3 : Nat)
    (h1a : 500 ≤ s1) (h1b : s1 ≤ 599)
    (h2a : 400 ≤ s2) (h2b : s2 ≤ 499)
    (h3a : 200 ≤ s3) (h3b : s3 ≤ 299) :
    logLevel s1 = .error ∧ logLevel s2 = .warn ∧ logLevel s3 = .info := by
  unfold logLevel
  refine ⟨?_, ?_, ?_⟩
  · rw [if_pos (by omega)]
  · rw [if_neg (by omega), if_pos (by omega)]
  · rw [if_neg (by omega), if_neg (by omega)]

/-- Witness for C4 at the statuses the claim singles out: 500 logs
error, 404 logs warn, 200 logs info. -/
theorem c4_witness :
    logLevel 500 = LogLevel.error ∧ logLevel 404 = LogLevel.warn ∧
    logLevel 200 = LogLevel.info :=
  c4_status_class_log_level 500 404 200 (by decide) (by decide) (by decide)
    (by decide) (by decide) (by decide)

/-- C8: on a transport failure with no structured response, the order
handler answers 500 with the exception message as the error field, the
gateway likewise, and neither handler performs a second call (each
handler consumes exactly one downstream call result by construction). -/
theorem c8_transport_failure (msg oid : String) (bt : Option ℚ) (r : Nat) :
    (orderHandler oid bt r (.transportFail msg)).resp.status = 500 ∧
    (orderHandler oid bt r (.transportFail msg)).resp.body.getField "error"
      = some (.str msg) ∧
    (gatewayHandler (.transportFail msg)).status = 500 ∧
    (gatewayHandler (.transportFail msg)).body.getField "error" = some (.str msg) :=
  ⟨rfl, rfl, rfl, rfl⟩

/-- C6 divergence witness: the middleware mints request id r1 and tags
its own log lines with it, but the order handler's own log lines carry
no request_id at all; in the payment-declined run the Payment failed
error line has requestId none, so grepping the correlation id misses it. -/
theorem c6_missing_correlation_id :
    (processRequestOrder "POST" "/orders" "r1" [] Metrics.init []).logs
      = [⟨LogLevel.info, "Incoming request", some "r1"⟩] ∧
    ∃ e ∈ (orderHandler "ORD-1" (some 42) 0
        (CallResult.response (paymentHandler true "ORD-1" 42 "PAY-1" "T"))).logs,
      e.message = "Payment failed" ∧ e.requestId = none := by
  refine ⟨rfl, ⟨LogEntry.mk .error "Payment failed" none, ?_, rfl, rfl⟩⟩
  simp [orderHandler, axiosPost, paymentHandler]

/-! ## Lemmas about the terminal-callback loop -/

/-- Once the latch is set, no further terminal callback touches the
gauge or the decrement count, and the latch stays set. -/
theorem handleSignals_latched (method pth reqId : String) :
    ∀ (sigs : List TermEv) (s : ReqState), s.decremented = true →
      (handleSignals method pth reqId sigs s).m.activeRequests = s.m.activeRequests ∧
      (handleSignals method pth reqId sigs s).m.decEvents = s.m.decEvents ∧
      (handleSignals method pth reqId sigs s).decremented = true := by
  intro sigs
  induction sigs with
  | nil => intro s h; exact ⟨rfl, rfl, h⟩
  | cons e rest ih =>
    intro s h
    cases e with
    | finish st =>
      have h1 :
          (onFinish method pth reqId st s).m.activeRequests = s.m.activeRequests ∧
          (onFinish method pth reqId st s).m.decEvents = s.m.decEvents ∧
          (onFinish method pth reqId st s).decremented = true := by
        simp [onFinish, cleanup, h]
      obtain ⟨ha, hd, hl⟩ := ih (onFinish method pth reqId st s) h1.2.2
      exact ⟨by rw [handleSignals]; exact ha.trans h1.1,
             by rw [handleSignals]; exact hd.trans h1.2.1,
             by rw [handleSignals]; exact hl⟩
    | close we =>
      have h1 :
          (onClose method pth reqId we s).m.activeRequests = s.m.activeRequests ∧
          (onClose method pth reqId we s).m.decEvents = s.m.decEvents ∧
          (onClose method pth reqId we s).decremented = true := by
        cases we <;> simp [onClose, cleanup, h]
      obtain ⟨ha, hd, hl⟩ := ih (onClose method pth reqId we s) h1.2.2
      exact ⟨by rw [handleSignals]; exact ha.trans h1.1,
             by rw [handleSignals]; exact hd.trans h1.2.1,
             by rw [handleSignals]; exact hl⟩

/-- From a freshly entered request (latch clear), any nonempty sequence
of terminal callbacks decrements the gauge exactly once in total. -/
theorem handleSignals_once (method pth reqId : String) :
    ∀ (sigs : List TermEv) (s : ReqState), s.decremented = false → sigs ≠ [] →
      (handleSignals method pth reqId sigs s).m.activeRequests
        = s.m.activeRequests - 1 ∧
      (handleSignals method pth reqId sigs s).m.decEvents = s.m.decEvents + 1 := by
  intro sigs s hdec hne
  cases sigs with
  | nil => exact absurd rfl hne
  | cons e rest =>
    cases e with
    | finish st =>
      have h1 :
          (onFinish method pth reqId st s).m.activeRequests
            = s.m.activeRequests - 1 ∧
          (onFinish method pth reqId st s).m.decEvents = s.m.decEvents + 1 ∧
          (onFinish method pth reqId st s).decremented = true := by
        simp [onFinish, cleanup, hdec]
      obtain ⟨ha, hd, _⟩ :=
        handleSignals_latched method pth reqId rest (onFinish method pth reqId st s)
          h1.2.2
      exact ⟨by rw [handleSignals]; exact ha.trans h1.1,
             by rw [handleSignals]; exact hd.trans h1.2.1⟩
    | close we =>
      have h1 :
          (onClose method pth reqId we s).m.activeRequests
            = s.m.activeRequests - 1 ∧
          (onClose method pth reqId we s).m.decEvents = s.m.decEvents + 1 ∧
          (onClose method pth reqId we s).decremented = true := by
        cases we <;> simp [onClose, cleanup, hdec]
      obtain ⟨ha, hd, _⟩ :=
        handleSignals_latched method pth reqId rest (onClose method pth reqId we s)
          h1.2.2
      exact ⟨by rw [handleSignals]; exact ha.trans h1.1,
             by rw [handleSignals]; exact hd.trans h1.2.1⟩

/-- The labelled request counter only ever grows across terminal
callbacks: the new list extends the old one. -/
theorem handleSignals_counter_extends (method pth reqId : String) :
    ∀ (sigs : List TermEv) (s : ReqState), ∃ tl,
      (handleSignals method pth reqId sigs s).m.httpRequestsTotal
        = s.m.httpRequestsTotal ++ tl := by
  intro sigs
  induction sigs with
  | nil => intro s; exact ⟨[], by simp [handleSignals]⟩
  | cons e rest ih =>
    intro s
    cases e with
    | finish st =>
      obtain ⟨tl, htl⟩ := ih (onFinish method pth reqId st s)
      refine ⟨(method, pth, st) :: tl, ?_⟩
      rw [handleSignals, htl]
      have : (onFinish method pth reqId st s).m.httpRequestsTotal
          = s.m.httpRequestsTotal ++ [(method, pth, st)] := by
        by_cases h : s.decremented <;> simp [onFinish, cleanup, h]
      rw [this, List.append_assoc]
      rfl
    | close we =>
      obtain ⟨tl, htl⟩ := ih (onClose method pth reqId we s)
      refine ⟨tl, ?_⟩
      rw [handleSignals, htl]
      have : (onClose method pth reqId we s).m.httpRequestsTotal
          = s.m.httpRequestsTotal := by
        by_cases h : s.decremented <;> cases we <;> simp [onClose, cleanup, h]
      rw [this]

/-! ## Claims C1, C5, C9 -/

/-- C1: across any sequence of terminal-callback firings (0, 1 or 2 and
beyond), a tracked request's entry increment is matched by exactly one
decrement as soon as any terminal callback fires, never more; an
untracked (skipped) request is neither incremented nor decremented; and
the gauge never goes negative. -/
theorem c1_one_shot_decrement (method pth reqId : String) (sigs : List TermEv)
    (m : Metrics) (logs : List LogEntry) :
    (skipPath pth = true →
      (processRequest method pth reqId sigs m logs).m = m ∧
      (processRequest method pth reqId sigs m logs).logs = logs) ∧
    (skipPath pth = false →
      (processRequest method pth reqId sigs m logs).m.decEvents
        = m.decEvents + (if sigs = [] then 0 else 1) ∧
      (processRequest method pth reqId sigs m logs).m.activeRequests
        = m.activeRequests + (if sigs = [] then 1 else 0) ∧
      (0 ≤ m.activeRequests →
        0 ≤ (processRequest method pth reqId sigs m logs).m.activeRequests)) := by
  constructor
  · intro h
    simp [processRequest, h]
  · intro h
    by_cases hs : sigs = []
    · subst hs
      refine ⟨?_, ?_, fun h0 => ?_⟩
      · simp [processRequest, h, handleSignals]
      · simp [processRequest, h, handleSignals]
      · simp [processRequest, h, handleSignals]
        omega
    · have h1 := handleSignals_once method pth reqId sigs
        ⟨{ m with activeRequests := m.activeRequests + 1 },
         logs ++ [⟨.info, "Incoming request", some reqId⟩], false⟩ rfl hs
      have h2 : (handleSignals method pth reqId sigs
          ⟨{ m with activeRequests := m.activeRequests + 1 },
           logs ++ [⟨.info, "Incoming request", some reqId⟩],
           false⟩).m.activeRequests = m.activeRequests + 1 - 1 := h1.1
      have h3 : (handleSignals method pth reqId sigs
          ⟨{ m with activeRequests := m.activeRequests + 1 },
           logs ++ [⟨.info, "Incoming request", some reqId⟩],
           false⟩).m.decEvents = m.decEvents + 1 := h1.2
      refine ⟨?_, ?_, fun h0 => ?_⟩
      · simp [processRequest, h, hs, h3]
      · simp [processRequest, h, hs, h2]
      · simp [processRequest, h, hs, h2]
        omega

/-- Witness for C1: a skipped metrics scrape leaves the registry alone;
a normal request with both finish and close firing is decremented once
and returns the gauge to its entry value. -/
theorem c1_witness :
    (processRequest "GET" "/metrics" "r0" [TermEv.finish 200] Metrics.init []).m
      = Metrics.init ∧
    (processRequest "GET" "/api/fast" "r1" [TermEv.finish 200, TermEv.close true]
        Metrics.init []).m.decEvents = 1 ∧
    (processRequest "GET" "/api/fast" "r1" [TermEv.finish 200, TermEv.close true]
        Metrics.init []).m.activeRequests = 0 := by
  refine ⟨((c1_one_shot_decrement "GET" "/metrics" "r0" [TermEv.finish 200]
      Metrics.init []).1 (by decide)).1, ?_, ?_⟩
  · have h := ((c1_one_shot_decrement "GET" "/api/fast" "r1"
      [TermEv.finish 200, TermEv.close true] Metrics.init []).2 (by decide)).1
    simpa using h
  · have h := ((c1_one_shot_decrement "GET" "/api/fast" "r1"
      [TermEv.finish 200, TermEv.close true] Metrics.init []).2 (by decide)).2.1
    simpa using h

/-- C5: a client abort (close with the response not written, finish
never firing) logs the abort warning, still decrements the gauge exactly
once, and leaves both the duration histogram count and the request
counter untouched. -/
theorem c5_client_abort (method pth reqId : String) (m : Metrics)
    (logs : List LogEntry) (hskip : skipPath pth = false) :
    (processRequest method pth reqId [TermEv.close false] m logs).m.activeRequests
      = m.activeRequests ∧
    (processRequest method pth reqId [TermEv.close false] m logs).m.decEvents
      = m.decEvents + 1 ∧
    (processRequest method pth reqId [TermEv.close false] m logs).m.durationCount
      = m.durationCount ∧
    (processRequest method pth reqId [TermEv.close false] m logs).m.httpRequestsTotal
      = m.httpRequestsTotal ∧
    (processRequest method pth reqId [TermEv.close false] m logs).logs
      = logs ++ [⟨.info, "Incoming request", some reqId⟩,
                 ⟨.warn, "Request aborted by client", some reqId⟩] := by
  simp [processRequest, hskip, handleSignals, onClose, cleanup]

/-- Witness for C5 on a concrete aborted request. -/
theorem c5_witness :
    (processRequest "GET" "/api/slow" "r2" [TermEv.close false] Metrics.init
        []).m.activeRequests = Metrics.init.activeRequests ∧
    (processRequest "GET" "/api/slow" "r2" [TermEv.close false] Metrics.init
        []).m.decEvents = Metrics.init.decEvents + 1 ∧
    (processRequest "GET" "/api/slow" "r2" [TermEv.close false] Metrics.init
        []).m.durationCount = Metrics.init.durationCount ∧
    (processRequest "GET" "/api/slow" "r2" [TermEv.close false] Metrics.init
        []).m.httpRequestsTotal = Metrics.init.httpRequestsTotal ∧
    (processRequest "GET" "/api/slow" "r2" [TermEv.close false] Metrics.init
        []).logs
      = [] ++ [⟨.info, "Incoming request", some "r2"⟩,
               ⟨.warn, "Request aborted by client", some "r2"⟩] :=
  c5_client_abort "GET" "/api/slow" "r2" Metrics.init [] (by decide)

/-- C9: the labelled requests-total counter only ever extends (it is
non-decreasing) across any request however it terminates; a normally
completed request (finish then close) appends exactly one increment
labelled (method, path, status); an aborted request appends none. -/
theorem c9_requests_total (method pth reqId : String) (sigs : List TermEv)
    (st : Nat) (m : Metrics) (logs : List LogEntry)
    (hskip : skipPath pth = false) :
    (∃ tl, (processRequest method pth reqId sigs m logs).m.httpRequestsTotal
        = m.httpRequestsTotal ++ tl) ∧
    (processRequest method pth reqId [TermEv.finish st, TermEv.close true] m
        logs).m.httpRequestsTotal = m.httpRequestsTotal ++ [(method, pth, st)] ∧
    (processRequest method pth reqId [TermEv.close false] m
        logs).m.httpRequestsTotal = m.httpRequestsTotal := by
  refine ⟨?_, ?_, ?_⟩
  · simp only [processRequest, hskip, Bool.false_eq_true, if_false]
    exact handleSignals_counter_extends method pth reqId sigs
      ⟨{ m with activeRequests := m.activeRequests + 1 },
       logs ++ [⟨.info, "Incoming request", some reqId⟩], false⟩
  · simp [processRequest, hskip, handleSignals, onFinish, onClose, cleanup]
  · simp [processRequest, hskip, handleSignals, onClose, cleanup]

/-- Witness for C9 on concrete requests: one completed request appends
its one labelled increment, one aborted request appends nothing. -/
theorem c9_witness :
    (∃ tl, (processRequest "GET" "/api/fast" "r3" [] Metrics.init
        []).m.httpRequestsTotal = Metrics.init.httpRequestsTotal ++ tl) ∧
    (processRequest "GET" "/api/fast" "r3" [TermEv.finish 200, TermEv.close true]
        Metrics.init []).m.httpRequestsTotal
      = Metrics.init.httpRequestsTotal ++ [("GET", "/api/fast", 200)] ∧
    (processRequest "GET" "/api/fast" "r3" [TermEv.close false] Metrics.init
        []).m.httpRequestsTotal = Metrics.init.httpRequestsTotal :=
  c9_requests_total "GET" "/api/fast" "r3" [] 200 Metrics.init [] (by decide)

/-! ## Lemmas about interleaved traces of the bare tracking middleware -/

theorem runEv_append (t1 t2 : List Ev) :
    ∀ s, runEv s (t1 ++ t2) = runEv (runEv s t1) t2 := by
  induction t1 with
  | nil => intro s; rfl
  | cons e t ih => intro s; simp [runEv, ih]

theorem wfB_append (N : Nat) (t1 t2 : List Ev) :
    ∀ s, wfB N s (t1 ++ t2) = (wfB N s t1 && wfB N (runEv s t1) t2) := by
  induction t1 with
  | nil => intro s; simp [wfB, runEv]
  | cons e t ih => intro s; simp [wfB, runEv, ih, Bool.and_assoc]


/-- One step never unregisters a latch: a some flag stays some. -/
theorem stepEv_flag_some (s : Sys) (e : Ev) (i : Nat) (h : ∃ b, s.flag i = some b) :
    ∃ b, (stepEv s e).flag i = some b := by
  obtain ⟨b, hb⟩ := h
  cases e with
  | enter j =>
    by_cases hij : i = j
    · subst hij; exact ⟨false, by simp [stepEv]⟩
    · exact ⟨b, by simp [stepEv, hij, hb]⟩
  | term j =>
    rcases hf : s.flag j with _ | bj
    · exact ⟨b, by simp [stepEv, hf, hb]⟩
    · cases bj with
      | false =>
        by_cases hij : i = j
        · subst hij; exact ⟨true, by simp [stepEv, hf]⟩
        · exact ⟨b, by simp [stepEv, hf, hij, hb]⟩
      | true => exact ⟨b, by simp [stepEv, hf, hb]⟩

/-- Over a whole trace, a registered latch stays registered. -/
theorem flag_stays_some (t : List Ev) :
    ∀ (s : Sys) (i : Nat), (∃ b, s.flag i = some b) →
      ∃ b, (runEv s t).flag i = some b := by
  induction t with
  | nil => intro s i h; exact h
  | cons e t ih => intro s i h; exact ih (stepEv s e) i (stepEv_flag_some s e i h)

/-- A well-formed step keeps a fired latch fired: an enter event for the
same request is ruled out by well-formedness, and terminal callbacks do
not clear the latch. -/
theorem stepEv_flag_true (N : Nat) (s : Sys) (e : Ev) (i : Nat)
    (h : s.flag i = some true) (hok : evOk N s e = true) :
    (stepEv s e).flag i = some true := by
  cases e with
  | enter j =>
    by_cases hij : i = j
    · subst hij
      simp [evOk, h] at hok
    · simp [stepEv, hij, h]
  | term j =>
    rcases hf : s.flag j with _ | bj
    · simp [stepEv, hf, h]
    · cases bj with
      | false =>
        by_cases hij : i = j
        · subst hij; rw [h] at hf; cases hf
        · simp [stepEv, hf, hij, h]
      | true => simp [stepEv, hf, h]

/-- Over a well-formed trace, a fired latch stays fired. -/
theorem flag_true_stays (N : Nat) (t : List Ev) :
    ∀ (s : Sys) (i : Nat), s.flag i = some true → wfB N s t = true →
      (runEv s t).flag i = some true := by
  induction t with
  | nil => intro s i h _; exact h
  | cons e t ih =>
    intro s i h hwf
    rw [wfB, Bool.and_eq_true] at hwf
    exact ih (stepEv s e) i (stepEv_flag_true N s e i h hwf.1) hwf.2

/-- Once a request has entered (latch clear), if one of its terminal
callbacks fires somewhere in the rest of a well-formed trace, the latch
ends fired. -/
theorem flag_after_term (N : Nat) (t : List Ev) :
    ∀ (s : Sys) (i : Nat), s.flag i = some false → Ev.term i ∈ t →
      wfB N s t = true → (runEv s t).flag i = some true := by
  induction t with
  | nil => intro s i _ hmem; cases hmem
  | cons e t ih =>
    intro s i h hmem hwf
    rw [wfB, Bool.and_eq_true] at hwf
    by_cases he : e = Ev.term i
    · subst he
      have hstep : (stepEv s (Ev.term i)).flag i = some true := by
        simp [stepEv, h]
      exact flag_true_stays N t (stepEv s (Ev.term i)) i hstep hwf.2
    · have hmem2 : Ev.term i ∈ t := by
        rcases List.mem_cons.mp hmem with h1 | h1
        · exact absurd h1.symm he
        · exact h1
      have hstep : (stepEv s e).flag i = some false := by
        cases e with
        | enter j =>
          by_cases hij : i = j
          · subst hij
            simp [evOk, h] at hwf
          · simp [stepEv, hij, h]
        | term j =>
          have hij : i ≠ j := fun hh => he (by rw [hh])
          rcases hf : s.flag j with _ | bj
          · simp [stepEv, hf, h]
          · cases bj with
            | false => simp [stepEv, hf, hij, h]
            | true => simp [stepEv, hf, h]
      exact ih (stepEv s e) i hstep hmem2 hwf.2

/-- pcount only looks at flags below n. -/
theorem pcount_congr (f g : Nat → Option Bool) :
    ∀ n, (∀ j, j < n → f j = g j) → pcount f n = pcount g n := by
  intro n
  induction n with
  | zero => intro _; rfl
  | succ n ih =>
    intro h
    rw [pcount, pcount, ih fun j hj => h j (Nat.lt_succ_of_lt hj),
        h n (Nat.lt_succ_self n)]

/-- Effect of rewriting one flag below n on the in-flight count. -/
theorem pcount_update (f : Nat → Option Bool) (i : Nat) (v : Option Bool) :
    ∀ n, i < n →
      pcount (fun j => if j = i then v else f j) n
        = pcount f n - (if f i == some false then 1 else 0)
            + (if v == some false then 1 else 0) := by
  intro n
  induction n with
  | zero => intro h; cases h
  | succ n ih =>
    intro h
    by_cases hn : i = n
    · subst hn
      have hg : pcount (fun j => if j = i then v else f j) i = pcount f i :=
        pcount_congr _ _ i fun j hj => by
          simp [Nat.ne_of_lt hj]
      rw [pcount, pcount, hg]
      simp only [if_pos rfl]
      split_ifs <;> omega
    · have hi : i < n := by omega
      rw [pcount, pcount, ih hi]
      simp only [hn, if_neg (by omega : ¬n = i)]
      split_ifs <;> omega

/-- All-none flags count as zero in flight. -/
theorem pcount_none : ∀ n, pcount (fun _ => none) n = 0 := by
  intro n
  induction n with
  | zero => rfl
  | succ n ih => rw [pcount, ih]; rfl

/-- If no flag below n is clear, the in-flight count is zero. -/
theorem pcount_zero (f : Nat → Option Bool) :
    ∀ n, (∀ i, i < n → f i ≠ some false) → pcount f n = 0 := by
  intro n
  induction n with
  | zero => intro _; rfl
  | succ n ih =>
    intro h
    rw [pcount, ih fun i hi => h i (Nat.lt_succ_of_lt hi)]
    have : (f n == some false) = false := by
      cases hf : f n with
      | none => rfl
      | some b =>
        cases b with
        | false => exact absurd hf (h n (Nat.lt_succ_self n))
        | true => rfl
    rw [this]
    rfl

/-- The core accounting invariant of the tracking middleware: along any
well-formed trace, the gauge always equals its starting value plus the
number of requests currently in flight (entered, latch clear). -/
theorem run_gauge (N : Nat) (t : List Ev) :
    ∀ s : Sys, wfB N s t = true →
      (runEv s t).gauge - pcount (runEv s t).flag N = s.gauge - pcount s.flag N := by
  induction t with
  | nil => intro s _; rfl
  | cons e t ih =>
    intro s hwf
    rw [wfB, Bool.and_eq_true] at hwf
    have hstep : (stepEv s e).gauge - pcount (stepEv s e).flag N
        = s.gauge - pcount s.flag N := by
      cases e with
      | enter i =>
        have hok := hwf.1
        rw [evOk, Bool.and_eq_true, beq_iff_eq] at hok
        have hiN : i < N := of_decide_eq_true hok.1
        have hfi : s.flag i = none := hok.2
        have := pcount_update s.flag i (some false) N hiN
        rw [stepEv]
        simp only [this, hfi]
        simp
      | term i =>
        rcases hf : s.flag i with _ | bi
        · simp [stepEv, hf]
        · cases bi with
          | false =>
            have hok := hwf.1
            rw [evOk] at hok
            have hiN : i < N := of_decide_eq_true hok
            have := pcount_update s.flag i (some true) N hiN
            rw [stepEv]
            simp only [hf]
            simp only [this, hf]
            simp
          | true => simp [stepEv, hf]
    rw [runEv, ih (stepEv s e) hwf.2, hstep]

/-! ## Claim C2 -/

/-- C2: for a burst of N requests (N >= 1) interleaved arbitrarily on
the event loop, where each request enters the tracking middleware once
and at least one of its terminal callbacks later fires, the
active-requests gauge ends at exactly its pre-burst value G. -/
theorem c2_gauge_baseline (N : Nat) (G : Int) (t : List Ev)
    (hN : 1 ≤ N)
    (hwf : wfB N (Sys.init G) t = true)
    (hterm : ∀ i, i < N →
      ∃ t1 t2, t = t1 ++ Ev.enter i :: t2 ∧ Ev.term i ∈ t2) :
    (runEv (Sys.init G) t).gauge = G := by
  have _ := hN
  have hinv := run_gauge N t (Sys.init G) hwf
  have h0 : pcount (Sys.init G).flag N = 0 := pcount_none N
  have hfin : ∀ i, i < N → (runEv (Sys.init G) t).flag i = some true := by
    intro i hi
    obtain ⟨t1, t2, ht, hmem⟩ := hterm i hi
    subst ht
    have hw := hwf
    rw [wfB_append, Bool.and_eq_true] at hw
    have hw2 := hw.2
    rw [wfB, Bool.and_eq_true] at hw2
    rw [runEv_append, runEv]
    have hflag : (stepEv (runEv (Sys.init G) t1) (Ev.enter i)).flag i
        = some false := by
      simp [stepEv]
    exact flag_after_term N t2 _ i hflag hmem hw2.2
  have hzero : pcount (runEv (Sys.init G) t).flag N = 0 :=
    pcount_zero _ N fun i hi => by rw [hfin i hi]; simp
  have hG : (Sys.init G).gauge = G := rfl
  rw [hzero, hG, h0] at hinv
  omega

/-- Witness for C2: a burst of two interleaved requests, the second
one's close callback firing twice, still returns the gauge to its
baseline of 5. -/
theorem c2_witness :
    (runEv (Sys.init 5)
        [Ev.enter 0, Ev.enter 1, Ev.term 1, Ev.term 0, Ev.term 1]).gauge = 5 := by
  apply c2_gauge_baseline 2 5
      [Ev.enter 0, Ev.enter 1, Ev.term 1, Ev.term 0, Ev.term 1]
      (by decide) (by decide)
  intro i hi
  interval_cases i
  · exact ⟨[], [Ev.enter 1, Ev.term 1, Ev.term 0, Ev.term 1], rfl, by decide⟩
  · exact ⟨[Ev.enter 0], [Ev.term 1, Ev.term 0, Ev.term 1], rfl, by decide⟩

/-! ## Claim C7 -/

/-- C7 counterexample: in the order service's observability middleware a
request to the health endpoint is NOT excepted: it increments the
in-flight gauge and emits the request-received log, contrary to the
claim that both the liveness and metrics-scrape endpoints are skipped
everywhere. -/
theorem c7_counterexample :
    (processRequestOrder "GET" "/health" "r1" [] Metrics.init []).m.activeRequests
      = Metrics.init.activeRequests + 1 ∧
    (processRequestOrder "GET" "/health" "r1" [] Metrics.init []).logs
      = [⟨LogLevel.info, "Incoming request", some "r1"⟩] := by
  constructor <;> rfl

/-- C7 amended: the gateway's middleware excepts both /metrics and
/health (no increment, no metric update, no request-received log) and
gives every other path entry accounting exactly once; the order
service's middleware excepts only /metrics, so its health endpoint gets
the full accounting; and the bare tracking middleware of the order and
payment service apps excepts no path: its entry step always increments
the gauge. -/
theorem c7_amended_skips (method reqId pth : String) (sigs : List TermEv)
    (m : Metrics) (logs : List LogEntry) (hskip : skipPath pth = false) :
    (processRequest method "/metrics" reqId sigs m logs).m = m ∧
    (processRequest method "/metrics" reqId sigs m logs).logs = logs ∧
    (processRequest method "/health" reqId sigs m logs).m = m ∧
    (processRequest method "/health" reqId sigs m logs).logs = logs ∧
    (processRequest method pth reqId [] m logs).m.activeRequests
      = m.activeRequests + 1 ∧
    (processRequest method pth reqId [] m logs).logs
      = logs ++ [⟨.info, "Incoming request", some reqId⟩] ∧
    (processRequestOrder method "/metrics" reqId sigs m logs).m = m ∧
    (processRequestOrder method "/metrics" reqId sigs m logs).logs = logs ∧
    (processRequestOrder method "/health" reqId [] m logs).m.activeRequests
      = m.activeRequests + 1 ∧
    (processRequestOrder method "/health" reqId [] m logs).logs
      = logs ++ [⟨.info, "Incoming request", some reqId⟩] ∧
    (∀ (s : Sys) (i : Nat), (stepEv s (Ev.enter i)).gauge = s.gauge + 1) := by
  refine ⟨?_, ?_, ?_, ?_, ?_, ?_, ?_, ?_, ?_, ?_, fun s i => rfl⟩
  · simp [processRequest, skipPath]
  · simp [processRequest, skipPath]
  · simp [processRequest, skipPath]
  · simp [processRequest, skipPath]
  · simp [processRequest, hskip, handleSignals]
  · simp [processRequest, hskip, handleSignals]
  · simp [processRequestOrder, skipPathOrder]
  · simp [processRequestOrder, skipPathOrder]
  · simp [processRequestOrder, skipPathOrder, handleSignals]
  · simp [processRequestOrder, skipPathOrder, handleSignals]

/-- Witness for C7 amended at a concrete business path. -/
theorem c7_witness :
    (processRequest "POST" "/api/order" "r4" [] Metrics.init []).m.activeRequests
      = Metrics.init.activeRequests + 1 ∧
    (processRequest "POST" "/metrics" "r4" [] Metrics.init []).m = Metrics.init ∧
    (processRequestOrder "POST" "/health" "r4" [] Metrics.init
        []).m.activeRequests = Metrics.init.activeRequests + 1 := by
  have h := c7_amended_skips "POST" "r4" "/api/order" [] Metrics.init []
    (by decide)
  exact ⟨h.2.2.2.2.1, h.1, h.2.2.2.2.2.2.2.2.1⟩

/-! ## Claim C10 -/

/-- C10: the order total is taken from the body only when truthy: a
total of 0 or an absent total is replaced by the rounded random draw
r / 100, which lies in [0, 100] and has exactly two decimal places
(100 times it is the integer r); a nonzero supplied total is kept; and
the effective total is both the amount forwarded to the payment service
and the total field of the completed response. -/
theorem c10_order_total (oid : String) (r : Nat) (t : ℚ) (pr : Resp)
    (hr : r ≤ 10000) (ht : t ≠ 0)
    (h2xx : 200 ≤ pr.status ∧ pr.status ≤ 299) :
    orderTotalOf (some 0) r = (r : ℚ) / 100 ∧
    orderTotalOf none r = (r : ℚ) / 100 ∧
    orderTotalOf (some t) r = t ∧
    0 ≤ (r : ℚ) / 100 ∧
    (r : ℚ) / 100 ≤ 100 ∧
    ((r : ℚ) / 100) * 100 = (r : ℚ) ∧
    (orderHandler oid (some 0) r (.response pr)).amountSent = (r : ℚ) / 100 ∧
    (orderHandler oid none r (.response pr)).amountSent = (r : ℚ) / 100 ∧
    (orderHandler oid (some 0) r (.response pr)).resp.body.getField "total"
      = some (.num ((r : ℚ) / 100)) := by
  refine ⟨by simp [orderTotalOf], rfl, by simp [orderTotalOf, ht], by positivity,
    ?_, div_mul_cancel₀ _ (by norm_num), ?_, ?_, ?_⟩
  · rw [div_le_iff (by norm_num : (0 : ℚ) < 100)]
    norm_num
    exact_mod_cast hr
  · simp [orderHandler, axiosPost, h2xx, orderTotalOf]
  · simp [orderHandler, axiosPost, h2xx, orderTotalOf]
  · simp [orderHandler, axiosPost, h2xx, orderTotalOf, JVal.getField,
      List.lookup]

/-- Witness for C10 with a body total of 0 and draw r = 1234: the
substituted total 12.34 is used for the payment amount and the response. -/
theorem c10_witness :
    orderTotalOf (some 0) 1234 = (1234 : ℚ) / 100 ∧
    (orderHandler "ORD-9" (some 0) 1234
        (.response ⟨200, .obj []⟩)).amountSent = (1234 : ℚ) / 100 ∧
    (orderHandler "ORD-9" (some 0) 1234
        (.response ⟨200, .obj []⟩)).resp.body.getField "total"
      = some (.num ((1234 : ℚ) / 100)) := by
  have h := c10_order_total "ORD-9" 1234 5 ⟨200, .obj []⟩ (by norm_num)
    (by norm_num) (by constructor <;> norm_num)
  exact ⟨h.1, h.2.2.2.2.2.2.1, h.2.2.2.2.2.2.2.2⟩
